import Mathlib

/-!
Verification of the plan-and-execute orchestration core of the pipeline-agent
repository, shallowly embedded in Lean.

The embedding follows `src/pipeline-agent/src/workflows/nodes.py`,
`src/pipeline-agent/src/workflows/hitl.py`,
`src/pipeline-agent/src/api/routes/chat.py`,
`src/pipeline-agent/src/agents/planner.py` and
`src/pipeline-agent/src/agents/supervisor.py`.

External collaborators (LLM calls, task executors, the wall clock, id
generators) are passed in as explicit parameters; Python values that can flow
through the state are modelled by the JSON-like type `PyVal`; Python floats are
modelled by rationals.
-/

namespace PipelineAgent

/-- Task status strings used by the workflow (`pending`, `in_progress`,
`completed`, `failed`). -/
inductive Status where
  | pending
  | inProgress
  | completed
  | failed
  deriving DecidableEq, Repr

/-- JSON-like Python value: the payloads stored in step results, scheme
dictionaries, redis records and so on.  Python floats are modelled as
rationals. -/
inductive PyVal where
  | null : PyVal
  | bool : Bool → PyVal
  | num : ℚ → PyVal
  | str : String → PyVal
  | arr : List PyVal → PyVal
  | obj : List (String × PyVal) → PyVal

/-! String primitives are implemented over the underlying character lists so
that every definition reduces inside the kernel. -/

/-- ASCII lower-casing of one character (`str.lower()`; the repository's
strings only ever need the ASCII range, non-ASCII characters are
case-less). -/
def asciiLower (c : Char) : Char :=
  if 'A' ≤ c ∧ c ≤ 'Z' then Char.ofNat (c.toNat + 32) else c

/-- Python `str.lower()`. -/
def pyLower (s : String) : String := String.mk (s.data.map asciiLower)

/-- Whitespace as stripped by Python `str.strip()` (the repository's strings
only use ASCII whitespace). -/
def isSpaceChar (c : Char) : Bool :=
  c = ' ' ∨ c = '\t' ∨ c = '\n' ∨ c = '\r'

/-- Python `str.strip()`. -/
def pyStrip (s : String) : String :=
  String.mk (((s.data.dropWhile isSpaceChar).reverse.dropWhile isSpaceChar).reverse)

/-- Python `str.startswith(p)`. -/
def startsWithStr (s p : String) : Bool := p.data.isPrefixOf s.data

/-- Python `str.endswith(p)`. -/
def endsWithStr (s p : String) : Bool := p.data.reverse.isPrefixOf s.data.reverse

/-- Does `sub` occur inside `s` (character lists)? -/
def subOccursL (s sub : List Char) : Bool :=
  match s with
  | [] => sub.isEmpty
  | _ :: rest => sub.isPrefixOf s || subOccursL rest sub

/-- Substring containment, Python's `sub in s` for strings. -/
def strContains (s sub : String) : Bool :=
  sub.data.isEmpty || subOccursL s.data sub.data

/-- Split a character list on a separator character (Python
`str.split(sep)` for a one-character separator: empty pieces are kept). -/
def splitOnCharL (sep : Char) : List Char → List (List Char)
  | [] => [[]]
  | x :: rest =>
      match splitOnCharL sep rest with
      | h :: t => if x = sep then [] :: h :: t else (x :: h) :: t
      | [] => [[x]]

/-- Concatenate strings with a separator (`sep.join(parts)`). -/
def joinSep (sep : String) : List String → String
  | [] => ""
  | [x] => x
  | x :: rest => x ++ sep ++ joinSep sep rest

/-- Python `int(s)` on a string: optional sign, at least one digit, surrounding
whitespace allowed; anything else raises, modelled as `none`.  (Digit-group
underscores, accepted by Python, never reach this helper: callers split on
underscores first.) -/
def pyIntOfString (s : String) : Option Int :=
  let t := (pyStrip s).data
  let core : List Char × Int :=
    match t with
    | '-' :: rest => (rest, -1)
    | '+' :: rest => (rest, 1)
    | _ => (t, 1)
  if core.1 ≠ [] ∧ core.1.all Char.isDigit then
    some (core.2 * (core.1.foldl (fun acc c => acc * 10 + (c.toNat - 48)) (0 : Nat) : Nat))
  else none

/-- Python truthiness of a `PyVal` (`bool(v)`). -/
def pyTruthy : PyVal → Bool
  | .null => false
  | .bool b => b
  | .num q => q ≠ 0
  | .str s => s ≠ ""
  | .arr xs => !xs.isEmpty
  | .obj kvs => !kvs.isEmpty

/-- Look a key up in a Python dict (association list, first binding wins). -/
def dictGet (kvs : List (String × PyVal)) (k : String) : Option PyVal :=
  (kvs.find? (fun kv => kv.1 = k)).map (·.2)

/-- Python `d.get(k, default)`. -/
def dictGetD (kvs : List (String × PyVal)) (k : String) (dflt : PyVal) : PyVal :=
  (dictGet kvs k).getD dflt

/-- Python `float(v)` restricted to the shapes that occur here: numbers and
booleans convert; a decimal string converts; everything else raises
(`none`).  String exponents are not modelled (never exercised). -/
def pyFloatOfString (s : String) : Option ℚ :=
  let t := (pyStrip s).data
  let core : List Char × ℚ :=
    match t with
    | '-' :: rest => (rest, -1)
    | '+' :: rest => (rest, 1)
    | _ => (t, 1)
  match splitOnCharL '.' core.1 with
  | [a] =>
      if a ≠ [] ∧ a.all Char.isDigit then
        some (core.2 * (a.foldl (fun acc c => acc * 10 + (c.toNat - 48)) (0 : Nat) : Nat))
      else none
  | [a, b] =>
      if (a ≠ [] ∨ b ≠ []) ∧ a.all Char.isDigit ∧ b.all Char.isDigit then
        let ip : Nat := a.foldl (fun acc c => acc * 10 + (c.toNat - 48)) 0
        let fp : Nat := b.foldl (fun acc c => acc * 10 + (c.toNat - 48)) 0
        some (core.2 * ((ip : ℚ) + mkRat fp (10 ^ b.length)))
      else none
  | _ => none

/-- Python `float(v)`. -/
def pyFloat : PyVal → Option ℚ
  | .num q => some q
  | .bool b => some (if b then 1 else 0)
  | .str s => pyFloatOfString s
  | _ => none

/-- Python `str(v)` for the value shapes that reach it in this code base. -/
def pyStr : PyVal → String
  | .null => "None"
  | .bool b => if b then "True" else "False"
  | .num q => toString q.num ++ (if q.den = 1 then "" else "/" ++ toString q.den)
  | .str s => s
  | .arr _ => "<list>"
  | .obj _ => "<dict>"

/-! ### A small JSON codec

`json.loads` / `json.dumps` as used by `_to_result_data`, `_extract_schemes`
and `_to_result_text`.  The parser covers the JSON constructs that can occur
in the repository's payloads (no NaN/Infinity extension; float decimal
rendering in `jsonDumps` is approximated for non-integral rationals). -/

/-- Skip JSON whitespace. -/
def skipWs : List Char → List Char
  | c :: rest =>
      if c = ' ' ∨ c = '\t' ∨ c = '\n' ∨ c = '\r' then skipWs rest else c :: rest
  | [] => []

/-- Hex digit value. -/
def hexVal (c : Char) : Option Nat :=
  if '0' ≤ c ∧ c ≤ '9' then some (c.toNat - 48)
  else if 'a' ≤ c ∧ c ≤ 'f' then some (c.toNat - 87)
  else if 'A' ≤ c ∧ c ≤ 'F' then some (c.toNat - 55)
  else none

/-- Parse the remainder of a JSON string literal (after the opening quote). -/
def parseJsonString : Nat → List Char → Option (String × List Char)
  | 0, _ => none
  | _ + 1, [] => none
  | _ + 1, '"' :: rest => some ("", rest)
  | fuel + 1, '\\' :: esc =>
      match esc with
      | 'n' :: r => (parseJsonString fuel r).map (fun sr => (String.mk ('\n' :: sr.1.data), sr.2))
      | 't' :: r => (parseJsonString fuel r).map (fun sr => (String.mk ('\t' :: sr.1.data), sr.2))
      | 'r' :: r => (parseJsonString fuel r).map (fun sr => (String.mk ('\r' :: sr.1.data), sr.2))
      | 'b' :: r => (parseJsonString fuel r).map (fun sr => (String.mk ('\x08' :: sr.1.data), sr.2))
      | 'f' :: r => (parseJsonString fuel r).map (fun sr => (String.mk ('\x0c' :: sr.1.data), sr.2))
      | '"' :: r => (parseJsonString fuel r).map (fun sr => (String.mk ('"' :: sr.1.data), sr.2))
      | '\\' :: r => (parseJsonString fuel r).map (fun sr => (String.mk ('\\' :: sr.1.data), sr.2))
      | '/' :: r => (parseJsonString fuel r).map (fun sr => (String.mk ('/' :: sr.1.data), sr.2))
      | 'u' :: a :: b :: c :: d :: r =>
          match hexVal a, hexVal b, hexVal c, hexVal d with
          | some ha, some hb, some hc, some hd =>
              let code := ((ha * 16 + hb) * 16 + hc) * 16 + hd
              (parseJsonString fuel r).map
                (fun sr => (String.mk (Char.ofNat code :: sr.1.data), sr.2))
          | _, _, _, _ => none
      | _ => none
  | fuel + 1, c :: rest =>
      (parseJsonString fuel rest).map (fun sr => (String.mk (c :: sr.1.data), sr.2))

/-- Digits to a natural number. -/
def digitsToNat (ds : List Char) : Nat :=
  ds.foldl (fun acc c => acc * 10 + (c.toNat - 48)) 0

/-- Parse a JSON number. -/
def parseJsonNumber (cs : List Char) : Option (PyVal × List Char) :=
  let signed : List Char × ℚ :=
    match cs with
    | '-' :: rest => (rest, -1)
    | _ => (cs, 1)
  let ip := signed.1.span Char.isDigit
  if ip.1.isEmpty then none
  else
    let frac : List Char × List Char :=
      match ip.2 with
      | '.' :: rest => rest.span Char.isDigit
      | _ => ([], ip.2)
    if (match ip.2 with | '.' :: _ => frac.1.isEmpty | _ => false) then none
    else
      let expPart : Option (Int × List Char) :=
        match frac.2 with
        | 'e' :: rest | 'E' :: rest =>
            let esigned : List Char × Int :=
              match rest with
              | '-' :: r2 => (r2, -1)
              | '+' :: r2 => (r2, 1)
              | _ => (rest, 1)
            let ed := esigned.1.span Char.isDigit
            if ed.1.isEmpty then none else some (esigned.2 * digitsToNat ed.1, ed.2)
        | _ => some (0, frac.2)
      match expPart with
      | none => none
      | some (e, rest) =>
          let mant : ℚ :=
            (digitsToNat ip.1 : ℚ) + mkRat (digitsToNat frac.1) (10 ^ frac.1.length)
          some (.num (signed.2 * mant * (10 : ℚ) ^ e), rest)

mutual

/-- Parse one JSON value. -/
def parseJsonVal : Nat → List Char → Option (PyVal × List Char)
  | 0, _ => none
  | fuel + 1, cs =>
      match skipWs cs with
      | 'n' :: 'u' :: 'l' :: 'l' :: rest => some (.null, rest)
      | 't' :: 'r' :: 'u' :: 'e' :: rest => some (.bool true, rest)
      | 'f' :: 'a' :: 'l' :: 's' :: 'e' :: rest => some (.bool false, rest)
      | '"' :: rest => (parseJsonString (fuel + 1) rest).map (fun sr => (.str sr.1, sr.2))
      | '[' :: rest =>
          (match skipWs rest with
           | ']' :: r2 => some (.arr [], r2)
           | other => (parseJsonElems fuel other).map (fun er => (.arr er.1, er.2)))
      | '{' :: rest =>
          (match skipWs rest with
           | '}' :: r2 => some (.obj [], r2)
           | other => (parseJsonMembers fuel other).map (fun mr => (.obj mr.1, mr.2)))
      | other => parseJsonNumber other

/-- Parse the elements of a non-empty JSON array (up to and including `]`). -/
def parseJsonElems : Nat → List Char → Option (List PyVal × List Char)
  | 0, _ => none
  | fuel + 1, cs =>
      match parseJsonVal fuel cs with
      | none => none
      | some (v, rest) =>
          match skipWs rest with
          | ',' :: r2 => (parseJsonElems fuel r2).map (fun er => (v :: er.1, er.2))
          | ']' :: r2 => some ([v], r2)
          | _ => none

/-- Parse the members of a non-empty JSON object (up to and including the
closing brace). -/
def parseJsonMembers : Nat → List Char → Option (List (String × PyVal) × List Char)
  | 0, _ => none
  | fuel + 1, cs =>
      match skipWs cs with
      | '"' :: rest =>
          match parseJsonString (fuel + 1) rest with
          | none => none
          | some (key, r1) =>
              match skipWs r1 with
              | ':' :: r2 =>
                  match parseJsonVal fuel r2 with
                  | none => none
                  | some (v, r3) =>
                      match skipWs r3 with
                      | ',' :: r4 =>
                          (parseJsonMembers fuel r4).map
                            (fun mr => ((key, v) :: mr.1, mr.2))
                      | '}' :: r4 => some ([(key, v)], r4)
                      | _ => none
              | _ => none
      | _ => none

end

/-- Python `json.loads`: parse a full JSON document, rejecting trailing
garbage. -/
def jsonLoads (s : String) : Option PyVal :=
  match parseJsonVal (s.length * 4 + 16) s.data with
  | some (v, rest) => if (skipWs rest).isEmpty then some v else none
  | none => none

/-- Escape one character for JSON output (ensure_ascii=False). -/
def jsonEscapeChar (c : Char) : String :=
  if c = '"' then "\\\""
  else if c = '\\' then "\\\\"
  else if c = '\n' then "\\n"
  else if c = '\t' then "\\t"
  else if c = '\r' then "\\r"
  else if c.toNat < 32 then "\\u" ++ (Nat.toDigits 16 c.toNat).asString
  else String.singleton c

mutual

/-- Python `json.dumps(v, ensure_ascii=False)` with default separators. -/
def jsonDumps : PyVal → String
  | .null => "null"
  | .bool true => "true"
  | .bool false => "false"
  | .num q => toString q.num ++ (if q.den = 1 then "" else "/" ++ toString q.den)
  | .str s => "\"" ++ (s.data.map jsonEscapeChar).foldl (· ++ ·) "" ++ "\""
  | .arr xs => "[" ++ jsonDumpsList xs ++ "]"
  | .obj kvs => "\x7b" ++ jsonDumpsObj kvs ++ "\x7d"

/-- Serialize array elements. -/
def jsonDumpsList : List PyVal → String
  | [] => ""
  | [x] => jsonDumps x
  | x :: rest => jsonDumps x ++ ", " ++ jsonDumpsList rest

/-- Serialize object members. -/
def jsonDumpsObj : List (String × PyVal) → String
  | [] => ""
  | [kv] => "\"" ++ kv.1 ++ "\": " ++ jsonDumps kv.2
  | kv :: rest => "\"" ++ kv.1 ++ "\": " ++ jsonDumps kv.2 ++ ", " ++ jsonDumpsObj rest

end

/-- `nodes._to_result_text`.  A step result of Python `None` is modelled as
`Option.none`; JSON nulls inside containers are `PyVal.null`. -/
def to_result_text : Option PyVal → String
  | none => ""
  | some (.str s) => s
  | some v => jsonDumps v

/-- Index of the first occurrence of a character (Python `str.find`). -/
def charIndex (cs : List Char) (c : Char) : Option Nat :=
  cs.findIdx? (· = c)

/-- Index of the last occurrence of a character (Python `str.rfind`). -/
def charRIndex (cs : List Char) (c : Char) : Option Nat :=
  match charIndex cs.reverse c with
  | none => none
  | some i => some (cs.length - 1 - i)

/-- Interpret a parsed JSON dict the way `_to_result_data` does: unwrap the
`data` field when `success` is `True`. -/
def unwrapParsedDict (kvs : List (String × PyVal)) : List (String × PyVal) :=
  match dictGet kvs "data", dictGet kvs "success" with
  | some (.obj inner), some (.bool true) => inner
  | some _, some (.bool true) => kvs
  | _, _ => kvs

/-- `nodes._to_result_data`: convert an agent result to a structured dict. -/
def to_result_data (value : Option PyVal) : List (String × PyVal) :=
  match value with
  | some (.obj kvs) => kvs
  | some (.str s) =>
      let text := pyStrip s
      match jsonLoads text with
      | some (.obj kvs) => unwrapParsedDict kvs
      | some (.arr xs) => [("items", .arr xs)]
      | _ =>
          let cs := text.data
          match charIndex cs '{', charRIndex cs '}' with
          | some start, some stop =>
              if start < stop then
                match jsonLoads (String.mk ((cs.drop start).take (stop + 1 - start))) with
                | some (.obj kvs) => unwrapParsedDict kvs
                | _ => [("raw", .str s)]
              else [("raw", .str s)]
          | _, _ => [("raw", .str s)]
  | some v => [("raw", v)]
  | none => [("raw", .null)]

/-- A pump-scheme dictionary. -/
abbrev SchemeDict := List (String × PyVal)

/-- First key of `["schemes", "allSchemes", "all_combinations",
"allCombinations"]` bound to a list wins; non-dict entries are dropped. -/
def schemesFromDict (kvs : List (String × PyVal)) : List String → List SchemeDict
  | [] => []
  | key :: restKeys =>
      match dictGet kvs key with
      | some (.arr items) =>
          items.filterMap (fun item => match item with | .obj d => some d | _ => none)
      | _ => schemesFromDict kvs restKeys

/-- `nodes._extract_schemes`. -/
def extract_schemes (value : Option PyVal) : List SchemeDict :=
  match value with
  | none => []
  | some v =>
      let data : Option PyVal :=
        match v with
        | .str s =>
            let text := pyStrip s
            if startsWithStr text "\x7b" ∧ endsWithStr text "\x7d" then jsonLoads text
            else none
        | other => some other
      match data with
      | some (.obj kvs) =>
          schemesFromDict kvs ["schemes", "allSchemes", "all_combinations", "allCombinations"]
      | _ => []

/-- `nodes._looks_like_error_text`: only non-empty strings whose stripped text
is at most 100 characters and starts (case-insensitively) with one of the
known error prefixes count as soft failures.  A `none` argument is Python
`None` (not a string, hence `false`). -/
def looks_like_error_text : Option PyVal → Bool
  | some (.str value) =>
      let text := pyStrip value
      if text = "" then false
      else if text.length > 100 then false
      else
        let lower := pyLower text
        ["错误:", "error:", "失败:", "exception:", "调用失败"].any
          (fun p => startsWithStr lower p)
  | _ => false

/-! ### Workflow state and trace events -/

/-- `models.state.PlanStep`. -/
structure PlanStep where
  step_id : String
  step_number : Int
  description : String
  agent : String
  expected_output : String
  depends_on : List String
  status : Status
  result : Option PyVal
  error : Option String
  duration_ms : Option Int
  retry_count : Nat

/-- `models.state.ReflexionMemory`. -/
structure ReflexionMemory where
  step_id : String
  failure_reason : String
  lesson_learned : String
  revised_approach : String
  timestamp : String
  deriving DecidableEq

/-- Trace event types emitted by the workflow nodes
(`observability.TraceEventType`). -/
inductive TraceEventType where
  | plan_created
  | plan_updated
  | step_started
  | step_completed
  | step_failed
  | agent_thinking
  | tool_called
  | tool_result
  | reflexion
  | hitl_waiting
  | hitl_resumed
  | response_chunk
  | workflow_completed
  deriving DecidableEq, Repr

/-- One emitted trace event (`emit_trace_event`); payload dicts are not
tracked, only the event type and its step/agent tags. -/
structure TraceEvent where
  etype : TraceEventType
  step_number : Option Int
  agent : Option String
  deriving DecidableEq

/-- The HITL request dict built by `hitl_check_node` (options keep the raw
label value, Python `item.get("config") or f"方案{i+1}"`). -/
structure OptionItem where
  id : String
  label : PyVal
  energy : PyVal
  end_pressure : PyVal
  saving_rate : PyVal
  risk_level : String

/-- The `hitl_request` dict stored in the state by `hitl_check_node`. -/
structure HitlRequestData where
  request_id : String
  rtype : String
  title : String
  description : String
  options : List OptionItem
  schemes_detail : List SchemeDict

/-- The resume payload supplied for an interrupt (`user_choice`).  Payload
values are modelled as already-stringly where the code `str()`s them. -/
structure UserChoice where
  selected_option : Option String
  modified_data : Option PyVal
  comment : Option String

/-- The slice of `models.state.AgentState` read or written by the
plan-and-execute nodes.  LangChain message objects and token counters are
outside the claims and omitted. -/
structure WFState where
  user_input : String
  plan : List PlanStep
  current_step_index : Nat
  plan_reasoning : Option String
  needs_replan : Bool
  replan_reason : Option String
  reflexion_memories : List ReflexionMemory
  max_retries_per_step : Nat
  hitl_pending : Bool
  hitl_request : Option HitlRequestData
  hitl_response : Option (String × UserChoice)
  pipeline_data : Option (List (String × PyVal))
  calculation_result : Option (List (String × PyVal))
  knowledge_context : Option String
  report_result : Option (List (String × PyVal))
  optimization_result : Option SchemeDict
  oil_property_data : Option PyVal
  next_agent : Option String
  error_message : Option String
  error_count : Nat
  last_error_agent : Option String
  final_response : Option String
  confidence_score : ℚ
  intent : Option String
  session_id : String
  trace_id : String

/-- Python `x or default` for an optional string: `None` and `""` are falsy. -/
def orTruthy (o : Option String) (dflt : String) : String :=
  match o with
  | some s => if s = "" then dflt else s
  | none => dflt

/-! ### Workflow nodes (`workflows/nodes.py`)

Each node returns the successor state (LangGraph merges the returned partial
dict into the state; the embedding returns the merged state directly) together
with the trace events it emits.  External inputs — LLM outputs, task-executor
outcomes, generated ids, wall-clock durations and timestamps — are explicit
parameters. -/

/-- `executor_node`: pick the current step and route to its agent. -/
def executor_node (st : WFState) : WFState × List TraceEvent :=
  match st.plan.get? st.current_step_index with
  | none => ({ st with next_agent := none }, [])
  | some step =>
      let step' := { step with status := Status.inProgress, error := none }
      ({ st with plan := st.plan.set st.current_step_index step',
                 next_agent := some step.agent },
       [⟨.step_started, some step.step_number, some step.agent⟩])

/-- `step_evaluator_node`: route on the current step's status. -/
def step_evaluator_node (st : WFState) : WFState × List TraceEvent :=
  match st.plan.get? st.current_step_index with
  | none => (st, [])
  | some step =>
      match step.status with
      | .completed => ({ st with error_message := none, last_error_agent := none }, [])
      | .failed =>
          ({ st with error_message := some (orTruthy step.error "step failed"),
                     last_error_agent := some step.agent }, [])
      | _ => (st, [])

/-- `_run_step_with_agent`: the shared dispatch wrapper for the five agent
nodes.  `outcome` is the external executor's behaviour: `.error msg` models a
raised exception with text `msg`, `.ok r` a normal return (`r = none` is a
Python `None` return).  `duration` is the measured wall-clock duration. -/
def run_step_with_agent (st : WFState) (agent_name : String)
    (outcome : Except String (Option PyVal)) (duration : Int) :
    WFState × List TraceEvent :=
  match st.plan.get? st.current_step_index with
  | none => (st, [])
  | some step =>
      let preEvents : List TraceEvent :=
        [⟨.agent_thinking, some step.step_number, some agent_name⟩,
         ⟨.tool_called, some step.step_number, some agent_name⟩]
      let failWith : String → WFState × List TraceEvent := fun msg =>
        let step' := { step with
          status := Status.failed
          error := some msg
          duration_ms := some duration }
        ({ st with plan := st.plan.set st.current_step_index step',
                   error_message := some msg,
                   error_count := st.error_count + 1,
                   last_error_agent := some agent_name },
         preEvents ++ [⟨.step_failed, some step.step_number, some agent_name⟩])
      match outcome with
      | .error msg => failWith msg
      | .ok result =>
          if looks_like_error_text result then
            -- raise RuntimeError(_to_result_text(result)), caught by the same handler
            failWith (to_result_text result)
          else
            let step' := { step with
              status := Status.completed
              result := result
              duration_ms := some duration
              error := none }
            let base := { st with
              plan := st.plan.set st.current_step_index step'
              error_message := none
              last_error_agent := none }
            let upd :=
              if agent_name = "data_agent" then
                let parsed := to_result_data result
                let base1 := { base with pipeline_data := some parsed }
                match dictGet parsed "oil" with
                | some oil => { base1 with oil_property_data := some oil }
                | none => base1
              else if agent_name = "calc_agent" then
                { base with calculation_result := some (to_result_data result) }
              else if agent_name = "knowledge_agent" then
                { base with knowledge_context := some (to_result_text result) }
              else if agent_name = "report_agent" then
                { base with report_result := some (to_result_data result) }
              else base
            (upd,
             preEvents ++ [⟨.step_completed, some step.step_number, some agent_name⟩,
                           ⟨.tool_result, some step.step_number, some agent_name⟩])

/-- The reflexion agent's decision dict (external LLM collaborator or its
rule fallback). -/
structure ReflexionResult where
  failure_reason : String
  lesson_learned : String
  revised_approach : String
  should_retry : Bool
  should_replan : Bool

/-- `reflexion_node`: analyze the failed current step, decide
retry / replan / skip.  `ts` is the wall-clock timestamp for the memory. -/
def reflexion_node (st : WFState) (r : ReflexionResult) (ts : String) :
    WFState × List TraceEvent :=
  match st.plan.get? st.current_step_index with
  | none => (st, [])
  | some step =>
      let memory : ReflexionMemory :=
        ⟨step.step_id, r.failure_reason, r.lesson_learned, r.revised_approach, ts⟩
      let memories := st.reflexion_memories ++ [memory]
      let ev : List TraceEvent := [⟨.reflexion, some step.step_number, some step.agent⟩]
      let retry_count := step.retry_count
      let max_retries := st.max_retries_per_step
      let should_retry := r.should_retry ∧ retry_count < max_retries
      let should_replan := r.should_replan ∧ ¬ should_retry
      if should_retry then
        let step' := { step with
          retry_count := retry_count + 1
          status := Status.pending
          error := none }
        ({ st with plan := st.plan.set st.current_step_index step',
                   reflexion_memories := memories,
                   needs_replan := false, replan_reason := none,
                   error_message := none }, ev)
      else if should_replan then
        ({ st with reflexion_memories := memories,
                   needs_replan := true,
                   replan_reason := some r.revised_approach }, ev)
      else
        ({ st with reflexion_memories := memories,
                   current_step_index := st.current_step_index + 1,
                   needs_replan := false, replan_reason := none,
                   error_message := none }, ev)

/-- One raw step dict of a planner result, as read by
`nodes._build_plan_steps` (missing keys are `none`). -/
structure RawStep where
  step_number : Option Int
  description : Option String
  agent : Option String
  expected_output : Option String
  depends_on : Option (List String)

/-- A planner result dict (`planner.create_plan` / `planner.replan` output
after parsing/normalization, or the fallback). -/
structure PlanResult where
  reasoning : String
  plan : List RawStep
  direct_response : Bool

/-- Python `int(x or idx)` where falsy covers `None` and `0`. -/
def orIdxInt (o : Option Int) (idx : Int) : Int :=
  match o with
  | some n => if n = 0 then idx else n
  | none => idx

/-- `nodes._build_plan_steps`; `ids` models `generate_task_id()` (a fresh id
for the step at each 1-based position). -/
def build_plan_steps (ids : Nat → String) (raw : List RawStep) : List PlanStep :=
  raw.enum.map (fun p =>
    let idx := p.1 + 1
    { step_id := ids idx
      step_number := orIdxInt p.2.step_number (idx : Int)
      description := orTruthy p.2.description ("执行步骤" ++ toString idx)
      agent := orTruthy p.2.agent "knowledge_agent"
      expected_output := orTruthy p.2.expected_output ""
      depends_on := p.2.depends_on.getD []
      status := Status.pending
      result := none
      error := none
      duration_ms := none
      retry_count := 0 })

/-- The hard-coded greeting returned by `planner_node` for a chat-direct
result. -/
def plannerGreeting : String :=
  "你好！我是管道能耗分析智能助手，可以帮你完成以下任务：\n\n" ++
  "- **管道水力计算**：摩阻、压降、雷诺数等\n" ++
  "- **泵站优化**：最优泵组合方案\n" ++
  "- **数据查询**：项目、管道、油品参数\n" ++
  "- **故障诊断**：异常工况分析\n" ++
  "- **知识问答**：管道运输领域专业知识\n\n" ++
  "请描述你的分析需求，我会制定计划并逐步执行。"

/-- `planner_node`: generate the initial plan or replan after a failure.
`result` is the dict returned by `planner.replan` (when the replan branch is
taken) or `planner.create_plan` (otherwise); both are external LLM calls with
internal fallbacks, modelled as this parameter. -/
def planner_node (st : WFState) (ids : Nat → String) (result : PlanResult) :
    WFState × List TraceEvent :=
  let old_plan := st.plan
  let completed := old_plan.filter (fun s => s.status = Status.completed)
  let replanBranch :=
    st.needs_replan ∧ old_plan.isEmpty = false ∧ st.current_step_index < old_plan.length
  let evt : TraceEventType :=
    if replanBranch then TraceEventType.plan_updated else TraceEventType.plan_created
  if result.direct_response then
    ({ st with
        plan := []
        plan_reasoning := some "chat-direct"
        current_step_index := 0
        needs_replan := false
        replan_reason := none
        final_response := some plannerGreeting },
     [⟨.plan_created, none, none⟩])
  else
    let rebuilt := build_plan_steps ids result.plan
    if completed.isEmpty = false ∧ st.needs_replan then
      let rebuilt' := rebuilt.enum.map
        (fun p => { p.2 with step_number := (completed.length : Int) + (p.1 + 1) })
      ({ st with
          plan := completed ++ rebuilt'
          plan_reasoning := some result.reasoning
          current_step_index := completed.length
          needs_replan := false
          replan_reason := none },
       [⟨evt, none, none⟩])
    else
      ({ st with
          plan := rebuilt
          plan_reasoning := some result.reasoning
          current_step_index := 0
          needs_replan := false
          replan_reason := none },
       [⟨evt, none, none⟩])

/-! ### HITL gate (`hitl_check_node`) -/

/-- Python list indexing semantics (negative indices address from the end;
out-of-range raises, modelled as `none`). -/
def pyListGet {α : Type _} (xs : List α) (i : Int) : Option α :=
  if 0 ≤ i then xs.get? i.toNat
  else if (-i).toNat ≤ xs.length then xs.get? (xs.length - (-i).toNat)
  else none

/-- `any(float(item.get("end_pressure", 1)) < 0.1 for item in schemes)` —
short-circuiting generator; an unconvertible value raises (`none`) unless a
risky scheme was found first. -/
def hasRiskSC : List SchemeDict → Option Bool
  | [] => some false
  | item :: rest =>
      match pyFloat (dictGetD item "end_pressure" (.num 1)) with
      | none => none
      | some q => if q < mkRat 1 10 then some true else hasRiskSC rest

/-- Build the HITL option list; `float()` on any scheme's `end_pressure`
raising makes the whole comprehension raise (`none`). -/
def buildOptions (schemes : List SchemeDict) : Option (List OptionItem) :=
  schemes.enum.mapM (fun p =>
    match pyFloat (dictGetD p.2 "end_pressure" (.num 1)) with
    | none => none
    | some q =>
        let cfg := dictGetD p.2 "config" .null
        some
          { id := "scheme_" ++ toString p.1
            label := if pyTruthy cfg then cfg else .str ("方案" ++ toString (p.1 + 1))
            energy := dictGetD p.2 "energy_consumption" .null
            end_pressure := dictGetD p.2 "end_pressure" .null
            saving_rate := dictGetD p.2 "saving_rate" (.num 0)
            risk_level := if q < mkRat 1 10 then "high" else "normal" })

/-- The index parsed from a `selected_option` string
(`int(selected_option.split("_")[-1])`, defaulting to 0 when there is no
underscore or the suffix does not parse). -/
def selectedIndexOf (selected_option : String) : Int :=
  if strContains selected_option "_" then
    (pyIntOfString
      (String.mk ((splitOnCharL '_' selected_option.data).getLastD []))).getD 0
  else 0

/-- `hitl_check_node`: pause for human confirmation on multi-scheme or risky
calc results.  `reqId` models `generate_task_id()`; `choice` is the resume
payload returned by `interrupt(...)`.  The redis/MySQL persistence performed
through the HITL manager is modelled separately (see the HITLManager section);
`none` models an uncaught exception inside the node. -/
def hitl_check_node (st : WFState) (reqId : String) (choice : UserChoice) :
    Option (WFState × List TraceEvent) :=
  let continueDefault : WFState × List TraceEvent :=
    ({ st with
        hitl_pending := false
        hitl_request := none
        current_step_index := st.current_step_index + 1 }, [])
  match st.plan.get? st.current_step_index with
  | none => some (st, [])
  | some current_step =>
      let schemes := extract_schemes current_step.result
      if current_step.agent = "calc_agent" ∧ schemes.isEmpty = false then
        match hasRiskSC schemes with
        | none => none
        | some has_risk =>
            if schemes.length > 1 ∨ has_risk then
              match buildOptions schemes with
              | none => none
              | some opts =>
                  let hreq : HitlRequestData :=
                    ⟨reqId, "scheme_selection", "请选择优化方案",
                     "系统计算出多个方案，请确认后继续。", opts, schemes⟩
                  let selected_option := choice.selected_option.getD "scheme_0"
                  let selected_index := selectedIndexOf selected_option
                  let picked : Option SchemeDict :=
                    if selected_index < (schemes.length : Int) then
                      pyListGet schemes selected_index
                    else some schemes.headI
                  match picked with
                  | none => none
                  | some selected_scheme =>
                      some
                        ({ st with
                            hitl_pending := false
                            hitl_request := some hreq
                            hitl_response := some (reqId, choice)
                            optimization_result := some selected_scheme
                            current_step_index := st.current_step_index + 1 },
                         [⟨.hitl_waiting, some current_step.step_number,
                           some current_step.agent⟩,
                          ⟨.hitl_resumed, some current_step.step_number,
                           some current_step.agent⟩])
            else some continueDefault
      else some continueDefault

/-! ### Synthesizer -/

/-- One entry of the `completed_steps` list built by `synthesizer_node`. -/
structure CompletedTask where
  agent : String
  task : String
  result : String
  deriving Inhabited, DecidableEq

/-- `SupervisorAgent.synthesize_response_stream`.  `llm` models the streaming
collaborator: `.ok chunks` is a successful stream of tokens, `.error ()` a
raised exception.  Returns the final text and the chunks passed to
`on_chunk`. -/
def synthesize_response_stream (completed_tasks : List CompletedTask)
    (llm : Except Unit (List String)) : String × List String :=
  if completed_tasks.isEmpty then
    ("抱歉，无法处理您的请求。", ["抱歉，无法处理您的请求。"])
  else if completed_tasks.length = 1 ∧ completed_tasks.headI.result ≠ "" then
    (completed_tasks.headI.result, [completed_tasks.headI.result])
  else
    match llm with
    | .ok chunks =>
        let toks := chunks.filter (· ≠ "")
        (pyStrip (String.join toks), toks)
    | .error _ =>
        let fb := joinSep "\n\n"
          ((completed_tasks.filter (·.result ≠ "")).map (·.result))
        (fb, [fb])

/-- `synthesizer_node`: merge completed step results into the final response.
The appended LangChain message and the tracer metrics snapshot are outside
the embedded state. -/
def synthesizer_node (st : WFState) (llm : Except Unit (List String)) :
    WFState × List TraceEvent :=
  let completed_steps := (st.plan.filter (fun s => s.status = Status.completed)).map
    (fun s => CompletedTask.mk s.agent s.description (to_result_text s.result))
  let fr := st.final_response.getD ""
  let pair : String × List String :=
    if completed_steps.isEmpty ∧ fr ≠ "" then (fr, [fr])
    else if completed_steps.isEmpty then
      ("抱歉，未能获得有效执行结果。", ["抱歉，未能获得有效执行结果。"])
    else synthesize_response_stream completed_steps llm
  ({ st with final_response := some pair.1, confidence_score := mkRat 85 100 },
   pair.2.map (fun _ => TraceEvent.mk .response_chunk none none) ++
     [⟨.workflow_completed, none, none⟩])

/-! ### PlannerAgent (`agents/planner.py`) -/

/-- `PlannerAgent._is_chat_intent`. -/
def is_chat_intent (text : String) : Bool :=
  let t := pyLower (pyStrip text)
  let chat_phrases : List String :=
    ["你好", "hello", "hi", "嗨", "在吗", "在不在",
     "谢谢", "感谢", "thanks", "thank you",
     "再见", "拜拜", "bye",
     "你是谁", "你叫什么", "你能做什么", "帮我什么",
     "好的", "ok", "嗯", "哦"]
  if chat_phrases.any (fun p => t == p || t == p ++ "吗" || t == p ++ "啊") then true
  else
    let domain_keywords : List String :=
      ["管道", "泵站", "油品", "项目", "压力", "流量", "计算", "优化",
       "水力", "摩阻", "粘度", "密度", "能耗", "分析", "诊断", "故障",
       "报告", "碳排放", "敏感性", "方案", "对比", "监控", "知识图谱",
       "因果", "雷诺", "扬程", "排量", "粗糙度", "壁厚", "管径"]
    if t.length ≤ 10 ∧ ¬ domain_keywords.any (fun k => strContains t k) then true
    else false

/-- `PlannerAgent._normalize_agent` (`str(agent or "knowledge_agent")`,
substring rules, fallback `knowledge_agent`). -/
def normalize_agent (agent : PyVal) : String :=
  let value :=
    pyLower (pyStrip (pyStr (if pyTruthy agent then agent else .str "knowledge_agent")))
  let valid : List String :=
    ["data_agent", "calc_agent", "knowledge_agent", "graph_agent", "report_agent"]
  if valid.contains value then value
  else if strContains value "data" then "data_agent"
  else if strContains value "calc" ∨ strContains value "compute" then "calc_agent"
  else if strContains value "graph" then "graph_agent"
  else if strContains value "report" then "report_agent"
  else "knowledge_agent"

/-- Python `int(v)` on an arbitrary value (the conversions that occur in
`_normalize_depends`): numbers truncate toward zero, booleans become 0/1,
strings parse, everything else raises. -/
def pyIntOfVal : PyVal → Option Int
  | .num q => some (if 0 ≤ q then ⌊q⌋ else ⌈q⌉)
  | .bool b => some (if b then 1 else 0)
  | .str s => pyIntOfString s
  | _ => none

/-- `PlannerAgent._normalize_depends`: keep positive integers, drop
unparsable entries; a non-list becomes `[]` (`none` here). -/
def normalize_depends (depends_on : Option (List PyVal)) : List Int :=
  match depends_on with
  | none => []
  | some items =>
      items.filterMap (fun item =>
        match pyIntOfVal item with
        | some v => if v > 0 then some v else none
        | none => none)

/-- One raw step of the LLM's plan JSON, as read by `_parse_plan`. -/
structure LLMRawStep where
  step_number : Option Int
  description : Option String
  agent : PyVal
  expected_output : Option String
  depends_on : Option (List PyVal)

/-- The JSON object extracted from the LLM response
(`PlannerAgent._extract_json` output, field access via `.get`). -/
structure LLMPlanData where
  direct_response : Option Bool
  reasoning : Option String
  plan : Option (List LLMRawStep)

/-- Normalization of one step inside `_parse_plan`.  The produced dict is
modelled as a `RawStep` whose `depends_on` entries are already the strings
that `_build_plan_steps` will make of them. -/
def normalizeStep (p : Nat × LLMRawStep) : RawStep :=
  let idx := p.1 + 1
  { step_number := some (orIdxInt p.2.step_number (idx : Int))
    description := some (orTruthy p.2.description ("执行步骤" ++ toString idx))
    agent := some (normalize_agent p.2.agent)
    expected_output := some (orTruthy p.2.expected_output "")
    depends_on := some ((normalize_depends p.2.depends_on).map toString) }

/-- `PlannerAgent._fallback_plan`: the rule-based fallback planner. -/
def fallback_plan (user_input : String) (replan : Bool) (reason : String) : PlanResult :=
  let text := pyLower user_input
  if ¬ replan ∧ is_chat_intent text then
    { reasoning := "chat-direct", plan := [], direct_response := true }
  else
    let need_data := ["项目", "管道", "泵站", "参数", "数据"].any (fun k => strContains text k)
    let need_calc := ["计算", "优化", "压力", "流量", "雷诺", "摩阻"].any (fun k => strContains text k)
    let need_report := ["报告", "汇总", "导出"].any (fun k => strContains text k)
    let need_graph := ["因果", "知识图谱", "关系"].any (fun k => strContains text k)
    let mkStep : Nat → String → String → String → List String → RawStep :=
      fun n desc agent expect deps =>
        { step_number := some (n : Int)
          description := some desc
          agent := some agent
          expected_output := some expect
          depends_on := some deps }
    let s1 : List RawStep :=
      if need_data ∨ need_calc then
        [mkStep 1 "查询所需项目和管道基础参数" "data_agent" "项目、管道、泵站和油品关键参数" []]
      else []
    let s2 : List RawStep :=
      if need_calc then
        let n := s1.length + 1
        [mkStep n "执行水力分析或优化计算" "calc_agent" "计算指标与可行方案"
          (if n > 1 then [toString (n - 1)] else [])]
      else []
    let s3 : List RawStep :=
      if need_graph then
        let n := s1.length + s2.length + 1
        [mkStep n "执行知识图谱关系或因果推理" "graph_agent" "结构化关系与推理结论"
          (if n > 1 then [toString (n - 1)] else [])]
      else []
    let plan0 := s1 ++ s2 ++ s3
    let plan1 :=
      if plan0.isEmpty then
        [mkStep 1 "检索领域知识并回答问题" "knowledge_agent" "专业解释和依据" []]
      else plan0
    let plan2 :=
      if need_report then
        let n := plan1.length + 1
        plan1 ++ [mkStep n "生成报告结构并输出结论" "report_agent" "结构化报告摘要"
          (if n > 1 then [toString (n - 1)] else [])]
      else plan1
    { reasoning := (if replan then "replan" else "plan") ++ "-fallback(" ++ reason ++ ")"
      plan := plan2
      direct_response := false }

/-- `PlannerAgent._parse_plan`: normalize the extracted JSON; an empty
normalized plan falls back to `_fallback_plan("", reason="empty-plan")`. -/
def parse_plan (data : LLMPlanData) : PlanResult :=
  if data.direct_response = some true then
    { reasoning := data.reasoning.getD "chat-direct", plan := [], direct_response := true }
  else
    let reasoning := orTruthy data.reasoning "auto-generated plan"
    let raw_plan := data.plan.getD []
    let normalized := raw_plan.enum.map normalizeStep
    if normalized.isEmpty then fallback_plan "" false "empty-plan"
    else { reasoning := reasoning, plan := normalized, direct_response := false }

/-- `PlannerAgent.create_plan`: chat pre-filter, then the LLM call (`.ok` a
parsed JSON object, `.error` any raised exception including unparsable
output), falling back to the rule-based plan. -/
def create_plan (user_input : String) (llm : Except Unit LLMPlanData) : PlanResult :=
  if is_chat_intent user_input then
    { reasoning := "chat-direct", plan := [], direct_response := true }
  else
    match llm with
    | .ok data => parse_plan data
    | .error _ => fallback_plan user_input false "keyword"

/-- `PlannerAgent.replan`: parse the LLM replan output, prefixing the
reasoning, falling back to the rule-based replan. -/
def replan_result (user_input : String) (llm : Except Unit LLMPlanData) : PlanResult :=
  match llm with
  | .ok data =>
      let parsed := parse_plan data
      { parsed with reasoning := "replan: " ++ parsed.reasoning }
  | .error _ => fallback_plan user_input true "keyword"

/-! ### HITL manager and resume route
(`workflows/hitl.py`, `api/routes/chat.py`)

Redis is modelled as an association list of live keys (TTL expiry and wall
clock are not modelled; a stored TTL is kept as data).  The MySQL
`t_hitl_record` table is a list of rows; its wall-clock `response_time`
column is not modelled. -/

/-- The response sub-dict stored under `"response"` by `submit_response`. -/
structure StoredResponse where
  selected_option : Option String
  modified_data : Option PyVal
  comment : Option String

/-- The JSON payload stored in redis for one HITL request. -/
structure StoredHitl where
  request_id : String
  trace_id : String
  rtype : String
  title : String
  description : String
  options : List OptionItem
  schemes_detail : List SchemeDict
  default_option : Option String
  status : String
  response : Option StoredResponse

/-- One live redis value with the TTL it was last set with. -/
structure RedisEntry where
  payload : StoredHitl
  ttl : Nat

/-- The redis keyspace (`hitl:{session}:{request}` keys). -/
abbrev RedisStore := List (String × RedisEntry)

/-- `redis.get` (keys are unique by construction). -/
def redisGet : RedisStore → String → Option RedisEntry
  | [], _ => none
  | kv :: rest, key => if kv.1 = key then some kv.2 else redisGet rest key

/-- `redis.setex`: overwrite the key in place, or append a new one. -/
def redisSet : RedisStore → String → RedisEntry → RedisStore
  | [], key, e => [(key, e)]
  | kv :: rest, key, e =>
      if kv.1 = key then (key, e) :: rest else kv :: redisSet rest key e

/-- One row of `t_hitl_record`. -/
structure HitlRecord where
  request_id : String
  trace_id : String
  session_id : String
  hitl_type : String
  request_data : StoredHitl
  response_data : Option StoredResponse
  status : String

/-- The `t_hitl_record` table. -/
abbrev HitlDB := List HitlRecord

/-- `persistence.save_hitl_request`: insert or reset one row (request_id is
the unique key). -/
def save_hitl_request (db : HitlDB) (request_id trace_id session_id hitl_type : String)
    (request_data : StoredHitl) : HitlDB :=
  if (db.find? (fun row => row.request_id = request_id)).isSome then
    db.map (fun row =>
      if row.request_id = request_id then
        { row with
            trace_id := trace_id
            session_id := session_id
            hitl_type := hitl_type
            request_data := request_data
            response_data := none
            status := "pending" }
      else row)
  else
    db ++ [⟨request_id, trace_id, session_id, hitl_type, request_data, none, "pending"⟩]

/-- `persistence.save_hitl_response`: `UPDATE ... WHERE request_id = ...`
(no row is inserted when none matches). -/
def save_hitl_response (db : HitlDB) (request_id : String)
    (response_data : StoredResponse) (status : String) : HitlDB :=
  db.map (fun row =>
    if row.request_id = request_id then
      { row with response_data := some response_data, status := status }
    else row)

/-- The `HITLResponse` dataclass submitted to the manager. -/
structure HITLResponseMsg where
  request_id : String
  selected_option : Option String
  modified_data : Option PyVal
  comment : Option String

/-- `HITLManager.create_request`. -/
def create_request (store : RedisStore) (db : HitlDB) (session_id trace_id : String)
    (request : HitlRequestData) (timeout_seconds : Nat) (default_option : Option String) :
    RedisStore × HitlDB :=
  let key := "hitl:" ++ session_id ++ ":" ++ request.request_id
  let payload : StoredHitl :=
    { request_id := request.request_id
      trace_id := trace_id
      rtype := request.rtype
      title := request.title
      description := request.description
      options := request.options
      schemes_detail := request.schemes_detail
      default_option := default_option
      status := "pending"
      response := none }
  (redisSet store key ⟨payload, timeout_seconds⟩,
   save_hitl_request db request.request_id trace_id session_id request.rtype payload)

/-- `HITLManager.get_pending_request`: scan the session's keys for a pending
request (redis scan order is unspecified; the list order stands in for it). -/
def get_pending_request (store : RedisStore) (session_id : String) : Option StoredHitl :=
  (store.find? (fun kv =>
    startsWithStr kv.1 ("hitl:" ++ session_id ++ ":")
      ∧ kv.2.payload.status = "pending")).map (·.2.payload)

/-- `HITLManager.submit_response`: a missing/expired key raises `ValueError`
(`.error`); otherwise the record is marked responded and re-stored with a
300s TTL, and the DB row is updated. -/
def submit_response (store : RedisStore) (db : HitlDB) (session_id : String)
    (response : HITLResponseMsg) : Except String (RedisStore × HitlDB) :=
  let key := "hitl:" ++ session_id ++ ":" ++ response.request_id
  match redisGet store key with
  | none => .error "HITL request not found or expired"
  | some e =>
      let stored : StoredResponse :=
        ⟨response.selected_option, response.modified_data, response.comment⟩
      let data' := { e.payload with status := "responded", response := some stored }
      .ok (redisSet store key ⟨data', 300⟩,
           save_hitl_response db response.request_id stored "responded")

/-- The normalized confirm payload (`request.response` or the flat fields). -/
structure RespPayload where
  request_id : Option String
  selected_option : Option String
  modified_data : Option PyVal
  comment : Option String

/-- `HITLConfirmRequest` (API schema). -/
structure ConfirmRequest where
  session_id : String
  response : Option RespPayload
  selected_option : Option String
  comment : Option String
  modified_data : Option PyVal
  request_id : Option String

/-- The dict returned by `AgentWorkflow.resume_from_hitl` — the ReAct main
graph does not support main-graph HITL resume and returns this stub. -/
structure ResumeStubResult where
  response : String
  session_id : String
  trace_id : String
  intent : String
  confidence : ℚ
  hitl_response : RespPayload

/-- `AgentWorkflow.resume_from_hitl`. -/
def resume_from_hitl (session_id : String) (response : RespPayload) : ResumeStubResult :=
  { response := "当前 ReAct 主图不支持从主图断点恢复，请重新发起任务。"
    session_id := session_id
    trace_id := ""
    intent := "chat"
    confidence := mkRat 1 2
    hitl_response := response }

/-- What the `/chat/confirm` route produces: the HTTP response plus the
persisted stores it leaves behind. -/
structure ConfirmOutcome where
  status : String
  result : ResumeStubResult
  store : RedisStore
  db : HitlDB

/-- `str(a or b or "")` over optional strings. -/
def firstTruthy : List (Option String) → String
  | [] => ""
  | some s :: rest => if s = "" then firstTruthy rest else s
  | none :: rest => firstTruthy rest

/-- The payload used by `confirm_hitl` (`request.response` or the flat
fields). -/
def confirmPayload (req : ConfirmRequest) : RespPayload :=
  req.response.getD ⟨req.request_id, req.selected_option, req.modified_data, req.comment⟩

/-- `api.routes.chat.confirm_hitl`: the HITL resume route.  A failing
`submit_response` is caught and logged (`submit HITL response skipped`), and
the route proceeds to the main-graph resume stub either way. -/
def confirm_hitl (store : RedisStore) (db : HitlDB) (req : ConfirmRequest) : ConfirmOutcome :=
  let payload := confirmPayload req
  let pending := get_pending_request store req.session_id
  let rid := firstTruthy [payload.request_id, pending.map (·.request_id)]
  let sd : RedisStore × HitlDB :=
    if rid ≠ "" then
      match submit_response store db req.session_id
          ⟨rid, payload.selected_option, payload.modified_data, payload.comment⟩ with
      | .ok p => p
      | .error _ => (store, db)
    else (store, db)
  { status := "resumed"
    result := resume_from_hitl req.session_id payload
    store := sd.1
    db := sd.2 }

/-! ### The workflow transition relation

One labelled step of the plan-and-execute state machine: any node of the
subgraph fires on the current state, with arbitrary external inputs. -/

/-- Which node fired. -/
inductive NodeTag where
  | planner
  | executor
  | agentRun
  | stepEval
  | reflexion
  | hitl
  | synthesizer
  deriving DecidableEq, Repr

/-- Labelled transition relation of the workflow state machine: `NodeStep tag
st st'` holds when the node named by `tag`, run on `st` with some external
inputs, produces `st'`. -/
inductive NodeStep : NodeTag → WFState → WFState → Prop where
  | planner (st : WFState) (ids : Nat → String) (result : PlanResult) :
      NodeStep .planner st (planner_node st ids result).1
  | executor (st : WFState) :
      NodeStep .executor st (executor_node st).1
  | agentRun (st : WFState) (name : String) (outcome : Except String (Option PyVal))
      (dur : Int) :
      NodeStep .agentRun st (run_step_with_agent st name outcome dur).1
  | stepEval (st : WFState) :
      NodeStep .stepEval st (step_evaluator_node st).1
  | reflexion (st : WFState) (r : ReflexionResult) (ts : String) :
      NodeStep .reflexion st (reflexion_node st r ts).1
  | hitl (st : WFState) (reqId : String) (choice : UserChoice) (st' : WFState)
      (ev : List TraceEvent) (h : hitl_check_node st reqId choice = some (st', ev)) :
      NodeStep .hitl st st'
  | synthesizer (st : WFState) (llm : Except Unit (List String)) :
      NodeStep .synthesizer st (synthesizer_node st llm).1

/-- Length of the longest prefix of completed tasks. -/
def completedPrefixLen (plan : List PlanStep) : Nat :=
  (plan.takeWhile (fun s => s.status = Status.completed)).length

/-! ### List helper lemmas -/

/-- Setting an index to the value it already holds is the identity. -/
theorem list_set_self {α : Type _} (l : List α) (n : Nat) (a : α)
    (h : l.get? n = some a) : l.set n a = l := by
  induction l generalizing n with
  | nil => simp at h
  | cons x xs ih =>
      cases n with
      | zero => simp at h; simp [h]
      | succ m =>
          simp only [List.get?_cons_succ] at h
          simp only [List.set_cons_succ, List.cons.injEq, true_and]
          exact ih m h

/-- `takeWhile` passes over a prefix whose elements all satisfy the
predicate. -/
theorem takeWhile_append_all {α : Type _} {p : α → Bool} (xs ys : List α)
    (h : ∀ x ∈ xs, p x = true) :
    (xs ++ ys).takeWhile p = xs ++ ys.takeWhile p := by
  induction xs with
  | nil => simp
  | cons x xs ih =>
      have hx := h x (by simp)
      simp [List.takeWhile, hx]
      exact ih (fun y hy => h y (by simp [hy]))

/-- `takeWhile` of a list whose elements all fail the predicate is empty. -/
theorem takeWhile_nil_of_all_false {α : Type _} {p : α → Bool} (ys : List α)
    (h : ∀ y ∈ ys, p y = false) : ys.takeWhile p = [] := by
  cases ys with
  | nil => rfl
  | cons y ys => simp [List.takeWhile, h y (by simp)]

/-- Every step built by `_build_plan_steps` is pending. -/
theorem build_plan_steps_status (ids : Nat → String) (raw : List RawStep) :
    ∀ s ∈ build_plan_steps ids raw, s.status = Status.pending := by
  intro s hs
  simp only [build_plan_steps, List.mem_map] at hs
  obtain ⟨p, _, rfl⟩ := hs
  rfl

/-! ### Concrete fixtures for witnesses and counterexamples -/

/-- A neutral workflow state for concrete examples. -/
def baseState : WFState :=
  { user_input := ""
    plan := []
    current_step_index := 0
    plan_reasoning := none
    needs_replan := false
    replan_reason := none
    reflexion_memories := []
    max_retries_per_step := 2
    hitl_pending := false
    hitl_request := none
    hitl_response := none
    pipeline_data := none
    calculation_result := none
    knowledge_context := none
    report_result := none
    optimization_result := none
    oil_property_data := none
    next_agent := none
    error_message := none
    error_count := 0
    last_error_agent := none
    final_response := none
    confidence_score := 0
    intent := none
    session_id := "sess-1"
    trace_id := "trace-1" }

/-- A concrete plan step for examples. -/
def mkStep (n : Nat) (agent : String) (status : Status) (result : Option PyVal) :
    PlanStep :=
  { step_id := "sid-" ++ toString n
    step_number := (n : Int)
    description := "任务" ++ toString n
    agent := agent
    expected_output := ""
    depends_on := []
    status := status
    result := result
    error := none
    duration_ms := none
    retry_count := 0 }

/-! ### Claim theorems -/

/-- C3: for every task dispatch, a normal return whose text is a matched
soft-error string is classified exactly like a raised exception — the step is
marked failed (not completed) with the text stored as its error, a
`step_failed` event is emitted, the run error counter is incremented and the
step index does not advance; any other normal return marks the step
completed. -/
theorem step_soft_failure_classification (st : WFState) (name : String)
    (v : Option PyVal) (dur : Int) (step : PlanStep)
    (hstep : st.plan.get? st.current_step_index = some step) :
    (looks_like_error_text v = true →
      run_step_with_agent st name (Except.ok v) dur
        = run_step_with_agent st name (Except.error (to_result_text v)) dur
      ∧ (run_step_with_agent st name (Except.ok v) dur).1.plan.get? st.current_step_index
          = some { step with
                     status := Status.failed
                     error := some (to_result_text v)
                     duration_ms := some dur }
      ∧ (run_step_with_agent st name (Except.ok v) dur).1.error_count = st.error_count + 1
      ∧ (run_step_with_agent st name (Except.ok v) dur).1.current_step_index
          = st.current_step_index
      ∧ TraceEvent.mk .step_failed (some step.step_number) (some name)
          ∈ (run_step_with_agent st name (Except.ok v) dur).2)
    ∧ (looks_like_error_text v = false →
      ((run_step_with_agent st name (Except.ok v) dur).1.plan.get?
          st.current_step_index).map (·.status) = some Status.completed) := by
  have hlt : st.current_step_index < st.plan.length := (List.get?_eq_some.mp hstep).choose
  have heq : st.plan[st.current_step_index] = step := by
    have h2 := (List.get?_eq_some.mp hstep).choose_spec
    simpa using h2
  constructor
  · intro hb
    refine ⟨?_, ?_, ?_, ?_, ?_⟩ <;>
      simp [run_step_with_agent, hstep, hb, List.get?_set_eq_of_lt, hlt, heq]
  · intro hb
    simp only [run_step_with_agent, hstep, hb, Bool.false_eq_true, if_false]
    repeat' split
    all_goals simp [List.get?_set_eq_of_lt, hlt, heq]

/-- A one-step workflow state whose current step is the given one. -/
def oneStepState (s : PlanStep) : WFState := { baseState with plan := [s] }

/-- Witness for C3: a dispatch returning `"error: boom"` on a concrete state
is marked failed with the counter bumped, via the theorem itself. -/
theorem step_soft_failure_classification_witness :
    (oneStepState (mkStep 1 "calc_agent" Status.inProgress none)).plan.get?
        (oneStepState (mkStep 1 "calc_agent" Status.inProgress none)).current_step_index
      = some (mkStep 1 "calc_agent" Status.inProgress none)
    ∧ (run_step_with_agent (oneStepState (mkStep 1 "calc_agent" Status.inProgress none))
        "calc_agent" (Except.ok (some (.str "error: boom"))) 5).1.error_count
      = (oneStepState (mkStep 1 "calc_agent" Status.inProgress none)).error_count + 1 :=
  ⟨rfl,
   (((step_soft_failure_classification
        (oneStepState (mkStep 1 "calc_agent" Status.inProgress none)) "calc_agent"
        (some (.str "error: boom")) 5 (mkStep 1 "calc_agent" Status.inProgress none)
        rfl).1 (by decide)).2.2.1)⟩

/-- The 106-character string of C9's counterexample: 101 non-space characters
followed by 10 spaces, so `strip()` leaves 96 characters. -/
def c9str : String :=
  "error:" ++ String.mk (List.replicate 90 'x') ++ String.mk (List.replicate 10 ' ')

/-- Counterexample for C9: a 106-character string beginning with `"error:"`
is still classified as a soft failure (the 100-character bound applies to the
stripped text), so the step is marked failed, not completed as the claim
states. -/
theorem soft_failure_long_string_counterexample :
    c9str.length = 106
    ∧ looks_like_error_text (some (.str c9str)) = true
    ∧ ((run_step_with_agent (oneStepState (mkStep 1 "calc_agent" Status.inProgress none))
          "calc_agent" (Except.ok (some (.str c9str))) 5).1.plan.get? 0).map (·.status)
        = some Status.failed := by
  refine ⟨by decide, by decide, by decide⟩

/-- C9 (amended): the soft-failure check applies only to non-empty strings
whose whitespace-stripped text is at most 100 characters — a string whose
stripped text exceeds 100 characters is classified as success and the step
marked completed even with an error prefix, and non-string values are never
soft failures. -/
theorem soft_failure_length_bound (st : WFState) (name : String) (s : String)
    (dur : Int) (step : PlanStep)
    (hstep : st.plan.get? st.current_step_index = some step)
    (hlen : 100 < (pyStrip s).length) :
    looks_like_error_text (some (.str s)) = false
    ∧ ((run_step_with_agent st name (Except.ok (some (.str s))) dur).1.plan.get?
          st.current_step_index).map (·.status) = some Status.completed
    ∧ (∀ v : Option PyVal, (∀ t : String, v ≠ some (.str t)) →
          looks_like_error_text v = false) := by
  have hlt : st.current_step_index < st.plan.length := (List.get?_eq_some.mp hstep).choose
  have heq : st.plan[st.current_step_index] = step := by
    have h2 := (List.get?_eq_some.mp hstep).choose_spec
    simpa using h2
  have h1 : looks_like_error_text (some (.str s)) = false := by
    simp only [looks_like_error_text]
    by_cases he : pyStrip s = ""
    · simp [he]
    · simp [he, hlen]
  refine ⟨h1, ?_, ?_⟩
  · simp only [run_step_with_agent, hstep, h1, Bool.false_eq_true, if_false]
    repeat' split
    all_goals simp [List.get?_set_eq_of_lt, hlt, heq]
  · intro v hv
    match v with
    | none => rfl
    | some .null => rfl
    | some (.bool b) => rfl
    | some (.num q) => rfl
    | some (.str t) => exact absurd rfl (hv t)
    | some (.arr xs) => rfl
    | some (.obj kvs) => rfl

/-- Witness for C9's amended theorem on a 101-character string. -/
theorem soft_failure_length_bound_witness :
    (oneStepState (mkStep 1 "data_agent" Status.inProgress none)).plan.get?
        (oneStepState (mkStep 1 "data_agent" Status.inProgress none)).current_step_index
      = some (mkStep 1 "data_agent" Status.inProgress none)
    ∧ 100 < (pyStrip ("error:" ++ String.mk (List.replicate 95 'x'))).length
    ∧ looks_like_error_text (some (.str ("error:" ++ String.mk (List.replicate 95 'x')))) = false :=
  ⟨rfl, by decide,
   (soft_failure_length_bound (oneStepState (mkStep 1 "data_agent" Status.inProgress none))
      "data_agent" ("error:" ++ String.mk (List.replicate 95 'x')) 5
      (mkStep 1 "data_agent" Status.inProgress none) rfl (by decide)).1⟩

/-- C4: Reflexion retries in place (pending status, cleared error,
incremented retry count, same index) only while the step's retry count is
strictly below the budget, so a retry count never exceeds the budget; when
retry is not taken, `should_replan` sets the replan flag (index and plan
kept), and otherwise the step is abandoned and the index advances by one.
One reflexion memory is appended regardless of the branch. -/
theorem reflexion_retry_budget (st : WFState) (r : ReflexionResult) (ts : String)
    (step : PlanStep) (hstep : st.plan.get? st.current_step_index = some step) :
    (r.should_retry = true → step.retry_count < st.max_retries_per_step →
      (reflexion_node st r ts).1.plan.get? st.current_step_index
          = some { step with
                     retry_count := step.retry_count + 1
                     status := Status.pending
                     error := none }
      ∧ (reflexion_node st r ts).1.current_step_index = st.current_step_index
      ∧ (reflexion_node st r ts).1.needs_replan = false)
    ∧ (¬ (r.should_retry = true ∧ step.retry_count < st.max_retries_per_step) →
        r.should_replan = true →
        (reflexion_node st r ts).1.needs_replan = true
        ∧ (reflexion_node st r ts).1.replan_reason = some r.revised_approach
        ∧ (reflexion_node st r ts).1.plan = st.plan
        ∧ (reflexion_node st r ts).1.current_step_index = st.current_step_index)
    ∧ (¬ (r.should_retry = true ∧ step.retry_count < st.max_retries_per_step) →
        r.should_replan = false →
        (reflexion_node st r ts).1.current_step_index = st.current_step_index + 1
        ∧ (reflexion_node st r ts).1.plan = st.plan
        ∧ (reflexion_node st r ts).1.needs_replan = false)
    ∧ ((∀ s ∈ st.plan, s.retry_count ≤ st.max_retries_per_step) →
        ∀ s ∈ (reflexion_node st r ts).1.plan,
          s.retry_count ≤ (reflexion_node st r ts).1.max_retries_per_step)
    ∧ (reflexion_node st r ts).1.reflexion_memories
        = st.reflexion_memories
            ++ [⟨step.step_id, r.failure_reason, r.lesson_learned,
                 r.revised_approach, ts⟩] := by
  have hlt : st.current_step_index < st.plan.length := (List.get?_eq_some.mp hstep).choose
  have heq : st.plan[st.current_step_index] = step := by
    have h2 := (List.get?_eq_some.mp hstep).choose_spec
    simpa using h2
  have hstep' : st.plan[st.current_step_index]? = some step := by
    simpa [← List.get?_eq_getElem?] using hstep
  refine ⟨?_, ?_, ?_, ?_, ?_⟩
  · intro hr hcnt
    refine ⟨?_, ?_, ?_⟩ <;>
      simp [reflexion_node, hstep', heq, hr, hcnt, List.get?_set_eq_of_lt, hlt]
  · intro hno hrp
    have hno2 : r.should_retry = true → st.max_retries_per_step ≤ step.retry_count := by
      intro h
      by_contra hlt2
      exact hno ⟨h, lt_of_not_ge hlt2⟩
    refine ⟨?_, ?_, ?_, ?_⟩ <;>
      simp [reflexion_node, hstep', heq, hno, hno2, hrp]
  · intro hno hrp
    have hno2 : r.should_retry = true → st.max_retries_per_step ≤ step.retry_count := by
      intro h
      by_contra hlt2
      exact hno ⟨h, lt_of_not_ge hlt2⟩
    refine ⟨?_, ?_, ?_⟩ <;>
      simp [reflexion_node, hstep', heq, hno, hno2, hrp]
  · intro hall s hs
    simp only [reflexion_node, hstep, hstep', heq] at hs ⊢
    by_cases hretry : r.should_retry = true ∧ step.retry_count < st.max_retries_per_step
    · rw [if_pos hretry] at hs ⊢
      simp only at hs ⊢
      rcases List.mem_or_eq_of_mem_set hs with hmem | rfl
      · exact hall s hmem
      · simpa using hretry.2
    · rw [if_neg hretry] at hs ⊢
      by_cases hrp : r.should_replan = true ∧ ¬ (r.should_retry = true ∧ step.retry_count < st.max_retries_per_step)
      · rw [if_pos hrp] at hs ⊢
        simp only at hs ⊢
        exact hall s hs
      · rw [if_neg hrp] at hs ⊢
        simp only at hs ⊢
        exact hall s hs
  · simp only [reflexion_node, hstep, hstep', heq]
    repeat' split
    all_goals simp

/-- Witness for C4: a concrete failed step with retry budget available is
reset to pending with its count bumped to 1. -/
theorem reflexion_retry_budget_witness :
    (oneStepState (mkStep 1 "calc_agent" Status.failed none)).plan.get?
        (oneStepState (mkStep 1 "calc_agent" Status.failed none)).current_step_index
      = some (mkStep 1 "calc_agent" Status.failed none)
    ∧ (reflexion_node (oneStepState (mkStep 1 "calc_agent" Status.failed none))
          ⟨"fr", "ll", "ra", true, false⟩ "ts").1.current_step_index
      = (oneStepState (mkStep 1 "calc_agent" Status.failed none)).current_step_index :=
  ⟨rfl,
   (((reflexion_retry_budget (oneStepState (mkStep 1 "calc_agent" Status.failed none))
        ⟨"fr", "ll", "ra", true, false⟩ "ts" (mkStep 1 "calc_agent" Status.failed none)
        rfl).1 rfl (by decide)).2.1)⟩

/-- Counterexample for C7: a state with exactly one completed task whose
stored result renders to empty text is re-synthesized through the LLM — the
final response is the LLM stream, not the task's stored result. -/
theorem synthesizer_single_task_counterexample :
    ((oneStepState (mkStep 1 "data_agent" Status.completed none)).plan.filter
        (fun s => s.status = Status.completed)).length = 1
    ∧ to_result_text (mkStep 1 "data_agent" Status.completed none).result = ""
    ∧ (synthesizer_node (oneStepState (mkStep 1 "data_agent" Status.completed none))
          (Except.ok ["LLM 合成结果"])).1.final_response = some "LLM 合成结果" := by
  refine ⟨by decide, rfl, by decide⟩

/-- C7 (amended): for every workflow state with exactly one completed task
whose stored result renders to non-empty text, the synthesizer's final
response is exactly that text, for every behaviour of the streaming LLM
collaborator — no re-synthesis takes place.  (A task whose result text is
empty falls through to LLM synthesis instead.) -/
theorem synthesizer_single_task (st : WFState) (llm : Except Unit (List String))
    (step : PlanStep)
    (hone : st.plan.filter (fun s => s.status = Status.completed) = [step])
    (hne : to_result_text step.result ≠ "") :
    (synthesizer_node st llm).1.final_response = some (to_result_text step.result) := by
  simp [synthesizer_node, hone, synthesize_response_stream, hne]

/-- Witness for C7's amended theorem on a concrete single-result state. -/
theorem synthesizer_single_task_witness :
    ((oneStepState (mkStep 1 "calc_agent" Status.completed (some (.str "结果文本")))).plan.filter
        (fun s => s.status = Status.completed))
      = [mkStep 1 "calc_agent" Status.completed (some (.str "结果文本"))]
    ∧ to_result_text (mkStep 1 "calc_agent" Status.completed (some (.str "结果文本"))).result ≠ ""
    ∧ (synthesizer_node
          (oneStepState (mkStep 1 "calc_agent" Status.completed (some (.str "结果文本"))))
          (Except.error ())).1.final_response = some "结果文本" :=
  ⟨rfl, by decide,
   synthesizer_single_task
     (oneStepState (mkStep 1 "calc_agent" Status.completed (some (.str "结果文本"))))
     (Except.error ()) (mkStep 1 "calc_agent" Status.completed (some (.str "结果文本")))
     rfl (by decide)⟩

/-- C8 (code bug): a non-trivial request whose LLM plan parses to an empty
list makes `_parse_plan` call the rule-based fallback with an empty string
instead of the user input, so the chat pre-filter fires and the planner
returns a direct-response with an empty plan — while the keyword fallback on
the actual request would have produced the 2-step data→calc plan the spec
guarantees. -/
theorem planner_empty_llm_plan_bug :
    is_chat_intent "计算管道压力" = false
    ∧ (create_plan "计算管道压力" (Except.ok ⟨none, some "推理", some []⟩)).direct_response = true
    ∧ (create_plan "计算管道压力" (Except.ok ⟨none, some "推理", some []⟩)).plan = []
    ∧ (fallback_plan "计算管道压力" false "keyword").plan.length = 2
    ∧ (fallback_plan "计算管道压力" false "keyword").direct_response = false := by
  refine ⟨by decide, by decide, rfl, by decide, by decide⟩

/-- Python list indexing at 0 on a non-empty list yields the head. -/
theorem pyListGet_zero {α : Type _} [Inhabited α] (xs : List α)
    (h : xs.isEmpty = false) : pyListGet xs 0 = some xs.headI := by
  cases xs with
  | nil => simp at h
  | cons a tl => simp [pyListGet]

/-- C10: the HITL gate's resume handling is total over the supplied choice —
whenever the interrupt branch is taken (calc step, extracted schemes, risk
check evaluates), a resume payload whose `selected_option` is missing, has an
unparsable index suffix, or names an index at or beyond the number of
schemes, does not fail: the gate falls back to the first scheme, stores it as
the optimization result, clears the pending flag and advances the step index
by one. -/
theorem hitl_resume_fallback (st : WFState) (reqId : String) (choice : UserChoice)
    (step : PlanStep) (hr : Bool) (opts : List OptionItem)
    (hstep : st.plan.get? st.current_step_index = some step)
    (hagent : step.agent = "calc_agent")
    (hne : (extract_schemes step.result).isEmpty = false)
    (hrisk : hasRiskSC (extract_schemes step.result) = some hr)
    (hbranch : (extract_schemes step.result).length > 1 ∨ hr = true)
    (hopts : buildOptions (extract_schemes step.result) = some opts)
    (hchoice :
      choice.selected_option = none
      ∨ (∃ s, choice.selected_option = some s
            ∧ ¬ (strContains s "_" = true
                  ∧ (pyIntOfString (String.mk ((splitOnCharL '_' s.data).getLastD []))).isSome))
      ∨ (∃ s n, choice.selected_option = some s ∧ strContains s "_" = true
            ∧ pyIntOfString (String.mk ((splitOnCharL '_' s.data).getLastD [])) = some n
            ∧ ((extract_schemes step.result).length : Int) ≤ n)) :
    (hitl_check_node st reqId choice).map
        (fun p => (p.1.optimization_result, p.1.hitl_pending, p.1.current_step_index))
      = some (some (extract_schemes step.result).headI, false,
              st.current_step_index + 1) := by
  have hpick0 : pyListGet (extract_schemes step.result) 0
      = some (extract_schemes step.result).headI := pyListGet_zero _ hne
  have hlen0 : 0 < (extract_schemes step.result).length := by
    cases hx : extract_schemes step.result with
    | nil => rw [hx] at hne; simp at hne
    | cons a tl => simp
  have hidx : selectedIndexOf (choice.selected_option.getD "scheme_0") = 0
      ∨ ¬ (selectedIndexOf (choice.selected_option.getD "scheme_0")
            < ((extract_schemes step.result).length : Int)) := by
    rcases hchoice with hnone | ⟨s, hs, hbad⟩ | ⟨s, n, hs, hus, hparse, hge⟩
    · left
      rw [hnone]
      decide
    · left
      rw [hs]
      simp only [Option.getD_some, selectedIndexOf]
      by_cases hu : strContains s "_" = true
      · have hn : pyIntOfString (String.mk ((splitOnCharL '_' s.data).getLastD [])) = none := by
          rcases hp : pyIntOfString (String.mk ((splitOnCharL '_' s.data).getLastD [])) with _ | v
          · rfl
          · exact absurd ⟨hu, by rw [hp]; rfl⟩ hbad
        rw [if_pos hu, hn]
        rfl
      · rw [if_neg hu]
    · right
      rw [hs]
      simp only [Option.getD_some, selectedIndexOf]
      rw [if_pos hus, hparse]
      simp only [Option.getD_some]
      omega
  have hcond1 : step.agent = "calc_agent" ∧ (extract_schemes step.result).isEmpty = false :=
    ⟨hagent, hne⟩
  simp only [hitl_check_node, hstep, hrisk, hopts]
  rw [if_pos hcond1, if_pos hbranch]
  rcases hidx with h0 | hout
  · rw [h0, if_pos (by exact_mod_cast hlen0)]
    rw [hpick0]
    rfl
  · rw [if_neg hout]
    rfl

/-- A completed calc step whose result carries two feasible pump schemes. -/
def calcSchemesStep : PlanStep :=
  mkStep 1 "calc_agent" Status.completed
    (some (.obj [("schemes", .arr
      [.obj [("end_pressure", .num (mkRat 1 2)), ("energy_consumption", .num 100)],
       .obj [("end_pressure", .num (mkRat 3 5)), ("energy_consumption", .num 90)]])]))

/-- Witness for C10: resuming with a missing `selected_option` on a concrete
two-scheme interrupt picks scheme 0 and advances the index. -/
theorem hitl_resume_fallback_witness :
    (extract_schemes calcSchemesStep.result).length = 2
    ∧ (oneStepState calcSchemesStep).plan.get? 0 = some calcSchemesStep
    ∧ (hitl_check_node (oneStepState calcSchemesStep) "req-1" ⟨none, none, none⟩).map
        (fun p => (p.1.optimization_result, p.1.hitl_pending, p.1.current_step_index))
      = some (some (extract_schemes calcSchemesStep.result).headI, false, 0 + 1) :=
  ⟨by decide, rfl,
   hitl_resume_fallback (oneStepState calcSchemesStep) "req-1" ⟨none, none, none⟩
     calcSchemesStep false
     ((buildOptions (extract_schemes calcSchemesStep.result)).getD [])
     rfl rfl (by decide) (by rfl) (Or.inl (by decide)) (by rfl) (Or.inl rfl)⟩

/-- A mid-run state: first task completed with a stored result, second task
failed, replan requested. -/
def replanState : WFState :=
  { baseState with
      plan := [mkStep 1 "data_agent" Status.completed (some (.str "R1")),
               mkStep 2 "calc_agent" Status.failed none]
      current_step_index := 1
      needs_replan := true }

/-- Counterexample for C5: a replan (needs_replan, non-empty plan, in-range
index) whose LLM replan output is a direct-response marker empties the whole
plan — the completed first task and its stored result are dropped, and the
index is reset to 0, not to the completed-prefix length 1. -/
theorem replan_keeps_completed_counterexample :
    replanState.needs_replan = true
    ∧ replanState.plan.length = 2
    ∧ replanState.current_step_index < replanState.plan.length
    ∧ (replanState.plan.filter (fun s => s.status = Status.completed)).length = 1
    ∧ (replan_result "查询数据" (Except.ok ⟨some true, none, none⟩)).direct_response = true
    ∧ (planner_node replanState (fun i => "new-" ++ toString i)
          (replan_result "查询数据" (Except.ok ⟨some true, none, none⟩))).1.plan = []
    ∧ (planner_node replanState (fun i => "new-" ++ toString i)
          (replan_result "查询数据" (Except.ok ⟨some true, none, none⟩))).1.current_step_index
        = 0 := by
  refine ⟨rfl, rfl, by decide, by decide, rfl, rfl, rfl⟩

/-- C5 (amended): for every replan whose planner output is an actual task
plan (not a direct-response) and where at least one task is completed, the
new plan keeps the completed tasks as an unmodified prefix — the very same
step records, stored results included — followed by the newly built tasks
with step numbers renumbered to continue after the prefix, and the step index
resumes at the length of the completed prefix, not at zero. -/
theorem replan_preserves_completed_history (st : WFState) (ids : Nat → String)
    (result : PlanResult)
    (hreplan : st.needs_replan = true)
    (hdirect : result.direct_response = false)
    (hcompleted : (st.plan.filter (fun s => s.status = Status.completed)).isEmpty = false) :
    (planner_node st ids result).1.plan.take
        (st.plan.filter (fun s => s.status = Status.completed)).length
      = st.plan.filter (fun s => s.status = Status.completed)
    ∧ (planner_node st ids result).1.plan.drop
        (st.plan.filter (fun s => s.status = Status.completed)).length
      = (build_plan_steps ids result.plan).enum.map
          (fun p => { p.2 with step_number :=
              ((st.plan.filter (fun s => s.status = Status.completed)).length : Int)
                + (p.1 + 1) })
    ∧ (planner_node st ids result).1.current_step_index
      = (st.plan.filter (fun s => s.status = Status.completed)).length := by
  simp only [planner_node, hdirect, hreplan, Bool.false_eq_true, if_false]
  rw [if_pos ⟨hcompleted, trivial⟩]
  refine ⟨?_, ?_, rfl⟩
  · exact List.take_left _ _
  · exact List.drop_left _ _

/-- Witness for C5's amended theorem: a concrete replan with one completed
task and a one-step replan output resumes at index 1 with the kept task
intact. -/
theorem replan_preserves_completed_history_witness :
    replanState.needs_replan = true
    ∧ (PlanResult.mk "新计划"
        [⟨some 1, some "重新计算", some "calc_agent", some "结果", some []⟩]
        false).direct_response = false
    ∧ (replanState.plan.filter (fun s => s.status = Status.completed)).isEmpty = false
    ∧ (planner_node replanState (fun i => "new-" ++ toString i)
          (PlanResult.mk "新计划"
            [⟨some 1, some "重新计算", some "calc_agent", some "结果", some []⟩]
            false)).1.current_step_index
        = (replanState.plan.filter (fun s => s.status = Status.completed)).length :=
  ⟨rfl, rfl, by decide,
   (replan_preserves_completed_history replanState (fun i => "new-" ++ toString i)
      (PlanResult.mk "新计划"
        [⟨some 1, some "重新计算", some "calc_agent", some "结果", some []⟩]
        false) rfl rfl (by decide)).2.2⟩

/-- Reading back a freshly set key yields the entry just written. -/
theorem redisGet_set_self (store : RedisStore) (k : String) (e : RedisEntry) :
    redisGet (redisSet store k e) k = some e := by
  induction store with
  | nil => simp [redisGet, redisSet]
  | cons kv rest ih =>
      by_cases h : kv.1 = k
      · simp [redisGet, redisSet, h]
      · simp [redisGet, redisSet, h, ih]

/-- Writing the same entry to the same key twice equals writing it once. -/
theorem redisSet_idem (store : RedisStore) (k : String) (e : RedisEntry) :
    redisSet (redisSet store k e) k e = redisSet store k e := by
  induction store with
  | nil => simp [redisSet]
  | cons kv rest ih =>
      by_cases h : kv.1 = k
      · simp [redisSet, h]
      · simp [redisSet, h, ih]

/-- Re-running the same HITL response `UPDATE` is a no-op. -/
theorem save_hitl_response_idem (db : HitlDB) (rid : String)
    (resp : StoredResponse) (status : String) :
    save_hitl_response (save_hitl_response db rid resp status) rid resp status
      = save_hitl_response db rid resp status := by
  simp only [save_hitl_response, List.map_map]
  apply List.map_congr_left
  intro row _
  by_cases h : row.request_id = rid
  · simp [h]
  · simp [h]

/-- Counterexample for C6: with no stored HITL request at all, a resume call
carrying an unknown `request_id` is not rejected — the manager-level error is
swallowed and the route reports success (`"resumed"`). -/
theorem resume_unknown_request_counterexample :
    get_pending_request ([] : RedisStore) "sess-1" = none
    ∧ submit_response ([] : RedisStore) ([] : HitlDB) "sess-1"
        ⟨"r1", some "scheme_1", none, none⟩
      = Except.error "HITL request not found or expired"
    ∧ (confirm_hitl ([] : RedisStore) ([] : HitlDB)
        ⟨"sess-1", none, some "scheme_1", none, none, some "r1"⟩).status = "resumed" := by
  refine ⟨rfl, rfl, rfl⟩

/-- C6 (amended): when the `request_id` matches no stored request for the
session, the manager's `submit_response` does raise the typed
"HITL request not found or expired" error, but the resume route catches and
swallows it and always reports status `"resumed"` with the main-graph stub
result — the call is never rejected at the API boundary. -/
theorem resume_unknown_request (store : RedisStore) (db : HitlDB) (sid : String)
    (msg : HITLResponseMsg)
    (hmiss : redisGet store ("hitl:" ++ sid ++ ":" ++ msg.request_id) = none) :
    submit_response store db sid msg = Except.error "HITL request not found or expired"
    ∧ ∀ req : ConfirmRequest, (confirm_hitl store db req).status = "resumed" := by
  constructor
  · simp [submit_response, hmiss]
  · intro req
    rfl

/-- Witness for C6's amended theorem on the empty store. -/
theorem resume_unknown_request_witness :
    redisGet ([] : RedisStore) ("hitl:" ++ "sess-1" ++ ":" ++ "r9") = none
    ∧ submit_response ([] : RedisStore) ([] : HitlDB) "sess-1" ⟨"r9", none, none, none⟩
      = Except.error "HITL request not found or expired" :=
  ⟨rfl,
   (resume_unknown_request ([] : RedisStore) ([] : HitlDB) "sess-1"
      ⟨"r9", none, none, none⟩ rfl).1⟩

/-- A store holding one pending HITL request `r1` for session `sess-1`. -/
def pendingStore : RedisStore :=
  [("hitl:" ++ "sess-1" ++ ":" ++ "r1",
    ⟨⟨"r1", "trace-1", "scheme_selection", "请选择优化方案", "desc", [], [], none,
      "pending", none⟩, 300⟩)]

/-- Counterexample for C2: replaying a resume with the same `request_id` but
a different `selected_option` overwrites the stored response — the persisted
state after the second resume differs from the state after the first, so
"same request_id" alone does not give idempotence. -/
theorem resume_idempotent_counterexample :
    ((redisGet (confirm_hitl pendingStore [] ⟨"sess-1", none, some "scheme_0", none, none,
          some "r1"⟩).store ("hitl:" ++ "sess-1" ++ ":" ++ "r1")).map
        (fun e => e.payload.response.map (·.selected_option)))
      = some (some (some "scheme_0"))
    ∧ ((redisGet (confirm_hitl
            (confirm_hitl pendingStore [] ⟨"sess-1", none, some "scheme_0", none, none,
              some "r1"⟩).store
            (confirm_hitl pendingStore [] ⟨"sess-1", none, some "scheme_0", none, none,
              some "r1"⟩).db
            ⟨"sess-1", none, some "scheme_1", none, none, some "r1"⟩).store
          ("hitl:" ++ "sess-1" ++ ":" ++ "r1")).map
        (fun e => e.payload.response.map (·.selected_option)))
      = some (some (some "scheme_1"))
    ∧ (confirm_hitl
            (confirm_hitl pendingStore [] ⟨"sess-1", none, some "scheme_0", none, none,
              some "r1"⟩).store
            (confirm_hitl pendingStore [] ⟨"sess-1", none, some "scheme_0", none, none,
              some "r1"⟩).db
            ⟨"sess-1", none, some "scheme_1", none, none, some "r1"⟩).store
        ≠ (confirm_hitl pendingStore [] ⟨"sess-1", none, some "scheme_0", none, none,
            some "r1"⟩).store := by
  refine ⟨rfl, rfl, ?_⟩
  intro h
  have h2 := congrArg
    (fun s => (redisGet s ("hitl:" ++ "sess-1" ++ ":" ++ "r1")).map
      (fun e => e.payload.response.map (·.selected_option))) h
  exact absurd h2 (by decide)

/-- C2 (amended): replaying a resume with the identical payload (same
request_id, present and non-empty, and the same option/edits/comment) is a
no-op: the second `/chat/confirm` call leaves the redis record, the
`t_hitl_record` row (wall-clock response timestamp aside) and the returned
resume result exactly as the first call left them. -/
theorem confirm_resume_idempotent (store : RedisStore) (db : HitlDB)
    (req : ConfirmRequest) (r : String)
    (hrid : (confirmPayload req).request_id = some r)
    (hr : r ≠ "") :
    confirm_hitl (confirm_hitl store db req).store (confirm_hitl store db req).db req
      = confirm_hitl store db req := by
  have hfirst : ∀ p : Option String,
      firstTruthy [(confirmPayload req).request_id, p] = r := by
    intro p
    rw [hrid]
    simp [firstTruthy, hr]
  cases hget : redisGet store ("hitl:" ++ req.session_id ++ ":" ++ r) with
  | none =>
      simp [confirm_hitl, hfirst, submit_response, hget, hr]
  | some e =>
      simp [confirm_hitl, hfirst, submit_response, hget, hr, redisGet_set_self,
        redisSet_idem, save_hitl_response_idem]

/-- Witness for C2's amended theorem: replaying the identical resume payload
on the concrete pending store is a no-op. -/
theorem confirm_resume_idempotent_witness :
    (confirmPayload ⟨"sess-1", none, some "scheme_0", none, none, some "r1"⟩).request_id
      = some "r1"
    ∧ ("r1" : String) ≠ ""
    ∧ confirm_hitl
        (confirm_hitl pendingStore [] ⟨"sess-1", none, some "scheme_0", none, none,
          some "r1"⟩).store
        (confirm_hitl pendingStore [] ⟨"sess-1", none, some "scheme_0", none, none,
          some "r1"⟩).db
        ⟨"sess-1", none, some "scheme_0", none, none, some "r1"⟩
      = confirm_hitl pendingStore [] ⟨"sess-1", none, some "scheme_0", none, none,
          some "r1"⟩ :=
  ⟨rfl, by decide,
   confirm_resume_idempotent pendingStore []
     ⟨"sess-1", none, some "scheme_0", none, none, some "r1"⟩ "r1" rfl (by decide)⟩

/-! ### Frame lemmas for the index/plan invariant (C1) -/

/-- What every non-planner node preserves: the task list (same length, same
task identities), an index that stays or advances by one, and the index
bound. -/
def FrameProp (st st' : WFState) : Prop :=
  st'.plan.length = st.plan.length
  ∧ st'.plan.map (·.step_id) = st.plan.map (·.step_id)
  ∧ (st'.current_step_index = st.current_step_index
      ∨ st'.current_step_index = st.current_step_index + 1)
  ∧ st'.current_step_index ≤ st'.plan.length

/-- Replacing a step by one with the same id keeps the id map. -/
theorem map_step_id_set (plan : List PlanStep) (n : Nat) (a step : PlanStep)
    (hstep : plan.get? n = some step) (hid : a.step_id = step.step_id) :
    (plan.set n a).map (·.step_id) = plan.map (·.step_id) := by
  rw [List.map_set]
  apply list_set_self
  rw [List.get?_map, hstep]
  simp [hid]

/-- `executor_node` preserves the frame. -/
theorem frame_executor (st : WFState)
    (hlen : st.current_step_index ≤ st.plan.length) :
    FrameProp st (executor_node st).1 := by
  rcases hs : st.plan.get? st.current_step_index with _ | step <;>
    simp only [executor_node, hs]
  · exact ⟨rfl, rfl, Or.inl rfl, hlen⟩
  · exact ⟨by simp, map_step_id_set _ _ _ _ hs rfl, Or.inl rfl, by simpa using hlen⟩

/-- `step_evaluator_node` preserves the frame. -/
theorem frame_step_evaluator (st : WFState)
    (hlen : st.current_step_index ≤ st.plan.length) :
    FrameProp st (step_evaluator_node st).1 := by
  rcases hs : st.plan.get? st.current_step_index with _ | step <;>
    simp only [step_evaluator_node, hs]
  · exact ⟨rfl, rfl, Or.inl rfl, hlen⟩
  · rcases step.status <;> exact ⟨rfl, rfl, Or.inl rfl, hlen⟩

/-- `_run_step_with_agent` preserves the frame. -/
theorem frame_run_step (st : WFState) (name : String)
    (outcome : Except String (Option PyVal)) (dur : Int)
    (hlen : st.current_step_index ≤ st.plan.length) :
    FrameProp st (run_step_with_agent st name outcome dur).1 := by
  rcases hs : st.plan.get? st.current_step_index with _ | step
  · simp only [run_step_with_agent, hs]
    exact ⟨rfl, rfl, Or.inl rfl, hlen⟩
  · simp only [run_step_with_agent, hs]
    repeat' split
    all_goals
      exact ⟨by simp, map_step_id_set _ _ _ _ hs rfl, Or.inl rfl, by simpa using hlen⟩

/-- `reflexion_node` preserves the frame. -/
theorem frame_reflexion (st : WFState) (r : ReflexionResult) (ts : String)
    (hlen : st.current_step_index ≤ st.plan.length) :
    FrameProp st (reflexion_node st r ts).1 := by
  rcases hs : st.plan.get? st.current_step_index with _ | step
  · simp only [reflexion_node, hs]
    exact ⟨rfl, rfl, Or.inl rfl, hlen⟩
  · have hlt : st.current_step_index < st.plan.length := (List.get?_eq_some.mp hs).choose
    simp only [reflexion_node, hs]
    repeat' split
    · exact ⟨by simp, map_step_id_set _ _ _ _ hs rfl, Or.inl rfl, by simpa using hlen⟩
    · exact ⟨rfl, rfl, Or.inl rfl, hlen⟩
    · exact ⟨rfl, rfl, Or.inr rfl, Nat.succ_le_of_lt hlt⟩

/-- `synthesizer_node` preserves the frame. -/
theorem frame_synthesizer (st : WFState) (llm : Except Unit (List String))
    (hlen : st.current_step_index ≤ st.plan.length) :
    FrameProp st (synthesizer_node st llm).1 :=
  ⟨rfl, rfl, Or.inl rfl, hlen⟩

/-- `hitl_check_node` preserves the frame whenever it returns. -/
theorem frame_hitl (st : WFState) (reqId : String) (choice : UserChoice)
    (st' : WFState) (ev : List TraceEvent)
    (h : hitl_check_node st reqId choice = some (st', ev))
    (hlen : st.current_step_index ≤ st.plan.length) :
    FrameProp st st' := by
  rcases hs : st.plan.get? st.current_step_index with _ | step
  · simp only [hitl_check_node, hs, Option.some.injEq, Prod.mk.injEq] at h
    obtain ⟨rfl, -⟩ := h
    exact ⟨rfl, rfl, Or.inl rfl, hlen⟩
  · have hlt : st.current_step_index < st.plan.length := (List.get?_eq_some.mp hs).choose
    simp only [hitl_check_node, hs] at h
    repeat' split at h
    all_goals
      first
      | exact Option.noConfusion h
      | (simp only [Option.some.injEq, Prod.mk.injEq] at h
         obtain ⟨rfl, -⟩ := h
         exact ⟨rfl, rfl, Or.inr rfl, Nat.succ_le_of_lt hlt⟩)

/-- Statuses of the renumbered replan suffix are all pending. -/
theorem renumbered_status (ids : Nat → String) (raw : List RawStep) (off : Int) :
    ∀ s ∈ (build_plan_steps ids raw).enum.map
        (fun p => { p.2 with step_number := off + (p.1 + 1) }),
      s.status = Status.pending := by
  intro s hsm
  simp only [List.mem_map] at hsm
  obtain ⟨p, hp, rfl⟩ := hsm
  have hmem : p.2 ∈ build_plan_steps ids raw := by
    have := List.mem_enum_iff_get?.mp hp
    exact List.get?_mem this
  simpa using build_plan_steps_status ids raw p.2 hmem

/-- The completed prefix of "all-completed ++ all-pending" is the first
block. -/
theorem completedPrefixLen_append (xs ys : List PlanStep)
    (hxs : ∀ x ∈ xs, x.status = Status.completed)
    (hys : ∀ y ∈ ys, y.status = Status.pending) :
    completedPrefixLen (xs ++ ys) = xs.length := by
  unfold completedPrefixLen
  rw [takeWhile_append_all xs ys (fun x hx => by simp [hxs x hx])]
  rw [takeWhile_nil_of_all_false ys (fun y hy => by simp [hys y hy])]
  simp

/-- `planner_node` always resets the index to the completed-prefix length of
the new plan (0 for a fresh or direct-response plan), and the index is in
bounds. -/
theorem planner_resets_index (st : WFState) (ids : Nat → String)
    (result : PlanResult) :
    (planner_node st ids result).1.current_step_index
        = completedPrefixLen (planner_node st ids result).1.plan
    ∧ (planner_node st ids result).1.current_step_index
        ≤ (planner_node st ids result).1.plan.length := by
  have hfilter : ∀ x ∈ st.plan.filter (fun s => s.status = Status.completed),
      x.status = Status.completed := by
    intro x hx
    have := List.of_mem_filter hx
    simpa using this
  by_cases hd : result.direct_response = true
  · simp [planner_node, hd]
    rfl
  · have hd' : result.direct_response = false := by
      cases hdr : result.direct_response
      · rfl
      · exact absurd hdr hd
    simp only [planner_node, hd', Bool.false_eq_true, if_false]
    by_cases hk : (st.plan.filter (fun s => s.status = Status.completed)).isEmpty = false
        ∧ st.needs_replan = true
    · rw [if_pos hk]
      constructor
      · exact (completedPrefixLen_append _ _ hfilter
          (renumbered_status ids result.plan _)).symm
      · simp
    · rw [if_neg hk]
      constructor
      · exact (by
          unfold completedPrefixLen
          rw [takeWhile_nil_of_all_false _
            (fun y hy => by simp [build_plan_steps_status ids result.plan y hy])]
          rfl)
      · simp

/-- C1: across every workflow transition the step index never exceeds the
plan length; every non-planner node keeps the task list (length and task
identities) and leaves the index equal or advances it by exactly one; and
the planner — the only node that can lower the index — resets it to exactly
the length of the completed-task prefix of the new plan, never below it. -/
theorem index_monotone (tag : NodeTag) (st st' : WFState)
    (h : NodeStep tag st st')
    (hlen : st.current_step_index ≤ st.plan.length) :
    st'.current_step_index ≤ st'.plan.length
    ∧ (tag ≠ NodeTag.planner →
        st'.plan.length = st.plan.length
        ∧ st'.plan.map (·.step_id) = st.plan.map (·.step_id)
        ∧ (st'.current_step_index = st.current_step_index
            ∨ st'.current_step_index = st.current_step_index + 1))
    ∧ (tag = NodeTag.planner →
        st'.current_step_index = completedPrefixLen st'.plan) := by
  cases h with
  | planner st ids result =>
      obtain ⟨hp1, hp2⟩ := planner_resets_index st ids result
      exact ⟨hp2, fun hne => absurd rfl hne, fun _ => hp1⟩
  | executor st =>
      obtain ⟨f1, f2, f3, f4⟩ := frame_executor st hlen
      exact ⟨f4, fun _ => ⟨f1, f2, f3⟩, fun habs => absurd habs (by decide)⟩
  | agentRun st name outcome dur =>
      obtain ⟨f1, f2, f3, f4⟩ := frame_run_step st name outcome dur hlen
      exact ⟨f4, fun _ => ⟨f1, f2, f3⟩, fun habs => absurd habs (by decide)⟩
  | stepEval st =>
      obtain ⟨f1, f2, f3, f4⟩ := frame_step_evaluator st hlen
      exact ⟨f4, fun _ => ⟨f1, f2, f3⟩, fun habs => absurd habs (by decide)⟩
  | reflexion st r ts =>
      obtain ⟨f1, f2, f3, f4⟩ := frame_reflexion st r ts hlen
      exact ⟨f4, fun _ => ⟨f1, f2, f3⟩, fun habs => absurd habs (by decide)⟩
  | hitl st reqId choice st' ev heq =>
      obtain ⟨f1, f2, f3, f4⟩ := frame_hitl st reqId choice st' ev heq hlen
      exact ⟨f4, fun _ => ⟨f1, f2, f3⟩, fun habs => absurd habs (by decide)⟩
  | synthesizer st llm =>
      obtain ⟨f1, f2, f3, f4⟩ := frame_synthesizer st llm hlen
      exact ⟨f4, fun _ => ⟨f1, f2, f3⟩, fun habs => absurd habs (by decide)⟩

/-- Witness for C1: one executor transition on a concrete one-step state
keeps the task list and the index bound. -/
theorem index_monotone_witness :
    (oneStepState (mkStep 1 "data_agent" Status.pending none)).current_step_index
        ≤ (oneStepState (mkStep 1 "data_agent" Status.pending none)).plan.length
    ∧ ((executor_node (oneStepState (mkStep 1 "data_agent" Status.pending none))).1.current_step_index
          ≤ (executor_node (oneStepState (mkStep 1 "data_agent" Status.pending none))).1.plan.length
       ∧ (NodeTag.executor ≠ NodeTag.planner →
            (executor_node (oneStepState (mkStep 1 "data_agent" Status.pending none))).1.plan.length
                = (oneStepState (mkStep 1 "data_agent" Status.pending none)).plan.length
            ∧ (executor_node (oneStepState (mkStep 1 "data_agent" Status.pending none))).1.plan.map
                  (·.step_id)
                = (oneStepState (mkStep 1 "data_agent" Status.pending none)).plan.map (·.step_id)
            ∧ ((executor_node (oneStepState (mkStep 1 "data_agent" Status.pending none))).1.current_step_index
                  = (oneStepState (mkStep 1 "data_agent" Status.pending none)).current_step_index
               ∨ (executor_node (oneStepState (mkStep 1 "data_agent" Status.pending none))).1.current_step_index
                  = (oneStepState (mkStep 1 "data_agent" Status.pending none)).current_step_index + 1))
       ∧ (NodeTag.executor = NodeTag.planner →
            (executor_node (oneStepState (mkStep 1 "data_agent" Status.pending none))).1.current_step_index
              = completedPrefixLen
                  (executor_node (oneStepState (mkStep 1 "data_agent" Status.pending none))).1.plan)) :=
  ⟨by decide,
   index_monotone NodeTag.executor
     (oneStepState (mkStep 1 "data_agent" Status.pending none))
     (executor_node (oneStepState (mkStep 1 "data_agent" Status.pending none))).1
     (NodeStep.executor (oneStepState (mkStep 1 "data_agent" Status.pending none)))
     (by decide)⟩

end PipelineAgent
